import Mathlib

/-!
Verification of the tilemap renderer (src/renderer.py).

The development shallowly embeds the pure computational content of the
renderer variants: the texture-atlas coordinate arithmetic and the
vertex-buffer layout of `VertexBufferedRenderer._update_vbo`, the tile-index
buffer of `GeomBufferedRenderer._update_vbo`, the projection matrix of
`_AbstractRenderer._get_projection_matrix`, the control flow of
`_OpenGLRenderer._compile_shader_program` / `__init__` / `__del__` /
`recalculate`, and the split position/texcoord arrays of
`Pyglet_VertexBufferedRenderer._update_vbo`.

Numeric values are modelled over ℚ (the Python code computes with exact
small rationals here: integer tile indices and the normalized atlas
constants); tile indices and grid coordinates are ℕ.
-/

/-- Atlas layout constants, the relevant subset of src/constants.py
(imported by renderer.py; the constants module itself only names the values,
so they stay abstract parameters here). -/
structure AtlasConsts where
  nTilesPerRow : ℕ
  tileSizeNormalized : ℚ
  tilePadding : ℚ

/-- Tilemap collaborator. Modelled from the spec: the tilemap class is not
under src/; the spec describes it as a row-major 2D grid of tile indices of
fixed dimensions rows × cols, exposing a linear backing buffer (`map`), a
2D lookup `tilemap[y, x]`, and a tile count `len(tilemap)` equal to the
length of the backing buffer. -/
structure Tilemap where
  rows : ℕ
  cols : ℕ
  map : List ℕ
  hLen : map.length = rows * cols

/-- Row-major 2D lookup `tilemap[y, x]`, reading the linear backing buffer. -/
def Tilemap.tileAt (tm : Tilemap) (y x : ℕ) : ℕ :=
  tm.map.getD (y * tm.cols + x) 0

/-- Left texture coordinate of tile `tile` in the atlas, from
`tx0 = (tile % TEXTURE_N_TILES_PER_ROW) * TEXTURE_TILE_SIZE_NORMALIZED + TEXTURE_TILE_PADDING`
in `VertexBufferedRenderer._update_vbo`. -/
def tx0 (c : AtlasConsts) (tile : ℕ) : ℚ :=
  (tile % c.nTilesPerRow : ℕ) * c.tileSizeNormalized + c.tilePadding

/-- Top texture coordinate of tile `tile` in the atlas, from
`ty0 = (tile // TEXTURE_N_TILES_PER_ROW) * TEXTURE_TILE_SIZE_NORMALIZED + TEXTURE_TILE_PADDING`. -/
def ty0 (c : AtlasConsts) (tile : ℕ) : ℚ :=
  (tile / c.nTilesPerRow : ℕ) * c.tileSizeNormalized + c.tilePadding

/-- Side length of the padded atlas rectangle, from
`tSize = TEXTURE_TILE_SIZE_NORMALIZED - TEXTURE_TILE_PADDING * 2`. -/
def tSize (c : AtlasConsts) : ℚ :=
  c.tileSizeNormalized - c.tilePadding * 2

/-- The 24 floats (6 vertices × (position x, position y, texcoord x,
texcoord y)) that the loop body of `VertexBufferedRenderer._update_vbo`
writes for the tile at grid coordinate (x, y) holding tile index `tile`:
top-left, top-right, bottom-left, top-right, bottom-left, bottom-right. -/
def tileVertexData (c : AtlasConsts) (x y tile : ℕ) : List ℚ :=
  [x, y, tx0 c tile, ty0 c tile,
   x + 1, y, tx0 c tile + tSize c, ty0 c tile,
   x, y + 1, tx0 c tile, ty0 c tile + tSize c,
   x + 1, y, tx0 c tile + tSize c, ty0 c tile,
   x, y + 1, tx0 c tile, ty0 c tile + tSize c,
   x + 1, y + 1, tx0 c tile + tSize c, ty0 c tile + tSize c]

/-- Vertex buffer contents built by `VertexBufferedRenderer._update_vbo`:
the outer loop runs x over the columns, the inner loop y over the rows,
appending 24 floats per tile into the preallocated array. -/
def vertexData (c : AtlasConsts) (tm : Tilemap) : List ℚ :=
  (List.range tm.cols).flatMap fun x =>
    (List.range tm.rows).flatMap fun y =>
      tileVertexData c x y (tm.tileAt y x)

/-- Buffer contents built by `GeomBufferedRenderer._update_vbo`: the raw
linear tile-index buffer `self._tilemap.map`. -/
def geomUpdateVbo (tm : Tilemap) : List ℕ :=
  tm.map

/-- Primitive modes used by the two GPU draw calls. -/
inductive PrimitiveMode where
  | triangles
  | points
deriving DecidableEq

/-- Arguments of a `glDrawArrays` call: primitive mode, first index, count. -/
structure DrawCall where
  mode : PrimitiveMode
  startIndex : ℕ
  count : ℕ
deriving DecidableEq

/-- Draw call issued by `VertexBufferedRenderer.draw`:
`glDrawArrays(GL_TRIANGLES, 0, len(self._tilemap) * 6)`. -/
def vertexBufferedDraw (tm : Tilemap) : DrawCall :=
  ⟨PrimitiveMode.triangles, 0, tm.map.length * 6⟩

/-- Draw call issued by `GeomBufferedRenderer.draw`:
`glDrawArrays(GL_POINTS, 0, len(self._tilemap))`. -/
def geomBufferedDraw (tm : Tilemap) : DrawCall :=
  ⟨PrimitiveMode.points, 0, tm.map.length⟩

/-- Tilemap with a single tile, used to evaluate the atlas arithmetic on a
chosen tile index. -/
def singleTileMap (t : ℕ) : Tilemap :=
  ⟨1, 1, [t], rfl⟩

/-- Concrete 3 × 3 tilemap used by the entry-count properties. -/
def tilemap3x3 : Tilemap :=
  ⟨3, 3, [0, 1, 2, 3, 4, 5, 6, 7, 8], rfl⟩

/-! Helper lemmas about flat-mapped ranges with constant block length. -/

/-- Length of a flatMap over a range when every block has length `m`. -/
lemma flatMap_range'_length {α : Type} (g : ℕ → List α) (m : ℕ)
    (hg : ∀ i, (g i).length = m) :
    ∀ (n s : ℕ), ((List.range' s n).flatMap g).length = n * m := by
  intro n
  induction n with
  | zero => intro s; simp
  | succ k ih =>
    intro s
    rw [List.range'_succ, List.flatMap_cons, List.length_append, hg, ih (s + 1),
      Nat.succ_mul, Nat.add_comm (k * m) m]

/-- Extracting a window from one block of a flatMap over a range when every
block has length `m`. -/
lemma flatMap_range'_drop_take {α : Type} (g : ℕ → List α) (m : ℕ)
    (hg : ∀ i, (g i).length = m) :
    ∀ (n s i r t : ℕ), i < n → r + t ≤ m →
      (((List.range' s n).flatMap g).drop (i * m + r)).take t
        = ((g (s + i)).drop r).take t := by
  intro n
  induction n with
  | zero => intro s i r t hi _; exact absurd hi (Nat.not_lt_zero i)
  | succ k ih =>
    intro s i r t hi hrt
    rw [List.range'_succ, List.flatMap_cons]
    cases i with
    | zero =>
      have hr : r ≤ (g s).length := by rw [hg]; omega
      rw [Nat.zero_mul, Nat.zero_add, List.drop_append_of_le_length hr,
        List.take_append_of_le_length (by rw [List.length_drop, hg]; omega),
        Nat.add_zero]
    | succ j =>
      have h1 : (j + 1) * m + r = (g s).length + (j * m + r) := by
        rw [hg]; ring
      rw [h1, List.drop_append, ih (s + 1) j r t (by omega) hrt,
        Nat.add_assoc, Nat.add_comm 1 j]

/-- Each tile contributes exactly 24 floats. -/
lemma tileVertexData_length (c : AtlasConsts) (x y tile : ℕ) :
    (tileVertexData c x y tile).length = 24 := rfl

/-- Inner column block of `vertexData` has length rows * 24. -/
lemma vertexData_inner_length (c : AtlasConsts) (tm : Tilemap) (x : ℕ) :
    ((List.range tm.rows).flatMap fun y =>
      tileVertexData c x y (tm.tileAt y x)).length = tm.rows * 24 := by
  rw [List.range_eq_range']
  exact flatMap_range'_length (fun y => tileVertexData c x y (tm.tileAt y x))
    24 (fun _ => rfl) tm.rows 0

/-- Total length of the vertex buffer: cols * rows * 24 floats. -/
lemma vertexData_length (c : AtlasConsts) (tm : Tilemap) :
    (vertexData c tm).length = tm.cols * (tm.rows * 24) := by
  unfold vertexData
  rw [List.range_eq_range']
  exact flatMap_range'_length _ (tm.rows * 24)
    (fun x => vertexData_inner_length c tm x) tm.cols 0

/-- The 24-float window of the vertex buffer belonging to tile (x, y). -/
lemma vertexData_chunk (c : AtlasConsts) (tm : Tilemap) (x y : ℕ)
    (hx : x < tm.cols) (hy : y < tm.rows) :
    ((vertexData c tm).drop ((x * tm.rows + y) * 24)).take 24
      = tileVertexData c x y (tm.tileAt y x) := by
  unfold vertexData
  rw [List.range_eq_range']
  have h1 : (x * tm.rows + y) * 24 = x * (tm.rows * 24) + y * 24 := by ring
  rw [h1]
  rw [flatMap_range'_drop_take _ (tm.rows * 24)
    (fun x' => vertexData_inner_length c tm x') tm.cols 0 x (y * 24) 24 hx
    (by have : y + 1 ≤ tm.rows := hy; calc y * 24 + 24 = (y + 1) * 24 := by ring
          _ ≤ tm.rows * 24 := Nat.mul_le_mul_right 24 this)]
  rw [Nat.zero_add, List.range_eq_range']
  have h2 : y * 24 = y * 24 + 0 := rfl
  rw [h2, flatMap_range'_drop_take
    (fun y' => tileVertexData c x y' (tm.tileAt y' x)) 24 (fun _ => rfl)
    tm.rows 0 y 0 24 hy (by omega)]
  rw [Nat.zero_add, List.drop_zero]
  exact List.take_of_length_le (by rw [tileVertexData_length])

/-- Single entries of the vertex buffer, read inside tile (x, y)'s window. -/
lemma vertexData_getD (c : AtlasConsts) (tm : Tilemap) (x y : ℕ)
    (hx : x < tm.cols) (hy : y < tm.rows) (k : ℕ) (hk : k < 24) :
    (vertexData c tm).getD ((x * tm.rows + y) * 24 + k) 0
      = (tileVertexData c x y (tm.tileAt y x)).getD k 0 := by
  have h := vertexData_chunk c tm x y hx hy
  have h2 : ((((vertexData c tm).drop ((x * tm.rows + y) * 24)).take 24)).getD k 0
      = (vertexData c tm).getD ((x * tm.rows + y) * 24 + k) 0 := by
    rw [List.getD_eq_getElem?_getD, List.getD_eq_getElem?_getD,
      List.getElem?_take_of_lt hk, List.getElem?_drop]
  rw [← h2, h]

/-- Atlas constants used by the concrete witnesses: 4 tiles per atlas row,
normalized tile size 1/4, padding 1/128. -/
def atlasW : AtlasConsts :=
  ⟨4, 1 / 4, 1 / 128⟩

/-- Claim C1: for every tile index t, the atlas coordinates written into the
vertex buffer are tx0 = (t % TEXTURE_N_TILES_PER_ROW) * TEXTURE_TILE_SIZE_NORMALIZED
+ TEXTURE_TILE_PADDING, ty0 = (t // TEXTURE_N_TILES_PER_ROW) *
TEXTURE_TILE_SIZE_NORMALIZED + TEXTURE_TILE_PADDING, and the rectangle side
is TEXTURE_TILE_SIZE_NORMALIZED - 2 * TEXTURE_TILE_PADDING; stated on the
buffer entries of the tile at grid coordinate (x, y). -/
theorem atlas_rect_in_vertex_buffer (c : AtlasConsts) (tm : Tilemap)
    (x y : ℕ) (hx : x < tm.cols) (hy : y < tm.rows) :
    (vertexData c tm).getD ((x * tm.rows + y) * 24 + 2) 0
        = ((tm.tileAt y x % c.nTilesPerRow : ℕ) : ℚ) * c.tileSizeNormalized
            + c.tilePadding
  ∧ (vertexData c tm).getD ((x * tm.rows + y) * 24 + 3) 0
        = ((tm.tileAt y x / c.nTilesPerRow : ℕ) : ℚ) * c.tileSizeNormalized
            + c.tilePadding
  ∧ (vertexData c tm).getD ((x * tm.rows + y) * 24 + 6) 0
      - (vertexData c tm).getD ((x * tm.rows + y) * 24 + 2) 0
        = c.tileSizeNormalized - 2 * c.tilePadding := by
  refine ⟨?_, ?_, ?_⟩
  · rw [vertexData_getD c tm x y hx hy 2 (by omega)]
    simp [tileVertexData, tx0]
  · rw [vertexData_getD c tm x y hx hy 3 (by omega)]
    simp [tileVertexData, ty0]
  · rw [vertexData_getD c tm x y hx hy 6 (by omega),
      vertexData_getD c tm x y hx hy 2 (by omega)]
    simp [tileVertexData, tx0, ty0, tSize]
    ring

/-- Witness for C1, at the boundary tile index t = tiles_per_row = 4 on a
1 × 1 tilemap. -/
theorem atlas_rect_in_vertex_buffer_witness :
    0 < (singleTileMap 4).cols ∧ 0 < (singleTileMap 4).rows ∧
    (vertexData atlasW (singleTileMap 4)).getD 2 0
      = ((4 % 4 : ℕ) : ℚ) * (1 / 4) + 1 / 128 :=
  ⟨by decide, by decide,
    (atlas_rect_in_vertex_buffer atlasW (singleTileMap 4) 0 0
      (by decide) (by decide)).1⟩

/-- Claim C3: the 24-float window of the vertex buffer belonging to the tile
at grid coordinate (x, y) is exactly the six vertices top-left, top-right,
bottom-left, top-right, bottom-left, bottom-right, each carrying its grid
position and the matching corner of the tile's atlas rectangle. -/
theorem per_tile_six_vertices (c : AtlasConsts) (tm : Tilemap)
    (x y : ℕ) (hx : x < tm.cols) (hy : y < tm.rows) :
    ((vertexData c tm).drop ((x * tm.rows + y) * 24)).take 24
      = [(x : ℚ), (y : ℚ), tx0 c (tm.tileAt y x), ty0 c (tm.tileAt y x),
         (x : ℚ) + 1, (y : ℚ), tx0 c (tm.tileAt y x) + tSize c,
           ty0 c (tm.tileAt y x),
         (x : ℚ), (y : ℚ) + 1, tx0 c (tm.tileAt y x),
           ty0 c (tm.tileAt y x) + tSize c,
         (x : ℚ) + 1, (y : ℚ), tx0 c (tm.tileAt y x) + tSize c,
           ty0 c (tm.tileAt y x),
         (x : ℚ), (y : ℚ) + 1, tx0 c (tm.tileAt y x),
           ty0 c (tm.tileAt y x) + tSize c,
         (x : ℚ) + 1, (y : ℚ) + 1, tx0 c (tm.tileAt y x) + tSize c,
           ty0 c (tm.tileAt y x) + tSize c] := by
  rw [vertexData_chunk c tm x y hx hy]
  rfl

/-- Witness for C3, evaluated on a 1 × 1 tilemap holding tile index 5 with
the concrete atlas constants. -/
theorem per_tile_six_vertices_witness :
    ((vertexData atlasW (singleTileMap 5)).drop 0).take 24
      = [0, 0, 33 / 128, 33 / 128,
         1, 0, 63 / 128, 33 / 128,
         0, 1, 33 / 128, 63 / 128,
         1, 0, 63 / 128, 33 / 128,
         0, 1, 33 / 128, 63 / 128,
         1, 1, 63 / 128, 63 / 128] := by
  have h := per_tile_six_vertices atlasW (singleTileMap 5) 0 0
    (by decide) (by decide)
  simp only [singleTileMap, Tilemap.tileAt, atlasW] at h
  norm_num [tx0, ty0, tSize] at h
  convert h using 2

/-- Claim C5: the point-mode buffer is exactly the tilemap's linear backing
buffer (n_tiles entries) and its draw is one GL_POINTS call of n_tiles
points, while the per-vertex buffer holds n_tiles * 6 * 2 * 2 floats, i.e.
n_tiles * 6 four-float vertex entries; for the 3 × 3 tilemap the entry
counts are 9 and 54. -/
theorem buffer_entry_counts (c : AtlasConsts) (tm : Tilemap) :
    geomUpdateVbo tm = tm.map
  ∧ (geomUpdateVbo tm).length = tm.rows * tm.cols
  ∧ geomBufferedDraw tm = ⟨PrimitiveMode.points, 0, tm.rows * tm.cols⟩
  ∧ (vertexData c tm).length = tm.rows * tm.cols * 6 * 2 * 2
  ∧ (vertexData c tm).length / 4 = tm.rows * tm.cols * 6
  ∧ (geomUpdateVbo tilemap3x3).length = 9
  ∧ (vertexData c tilemap3x3).length / 4 = 54 := by
  refine ⟨rfl, tm.hLen, ?_, ?_, ?_, rfl, ?_⟩
  · unfold geomBufferedDraw
    rw [tm.hLen]
  · rw [vertexData_length]
    ring
  · rw [vertexData_length]
    have h4 : tm.cols * (tm.rows * 24) = tm.rows * tm.cols * 6 * 4 := by ring
    rw [h4, Nat.mul_div_cancel _ (by norm_num)]
  · rw [vertexData_length]
    rfl

/-- Claim C9: vertex-data construction performs no tile-index validation:
for a tile index t at or above any claimed type count nTileTypes, the
buffer is still built (24 floats for a single-tile map) and the atlas
arithmetic is simply applied to the out-of-range index. -/
theorem no_tile_index_validation (c : AtlasConsts) (nTileTypes t : ℕ)
    (_ht : nTileTypes ≤ t) :
    (vertexData c (singleTileMap t)).length = 24
  ∧ (vertexData c (singleTileMap t)).getD 2 0
      = ((t % c.nTilesPerRow : ℕ) : ℚ) * c.tileSizeNormalized + c.tilePadding
  ∧ (vertexData c (singleTileMap t)).getD 3 0
      = ((t / c.nTilesPerRow : ℕ) : ℚ) * c.tileSizeNormalized + c.tilePadding := by
  refine ⟨by rw [vertexData_length]; rfl, ?_, ?_⟩
  · have h2 := vertexData_getD c (singleTileMap t) 0 0 Nat.one_pos Nat.one_pos
      2 (by omega)
    simpa [singleTileMap, Tilemap.tileAt, tileVertexData, tx0] using h2
  · have h3 := vertexData_getD c (singleTileMap t) 0 0 Nat.one_pos Nat.one_pos
      3 (by omega)
    simpa [singleTileMap, Tilemap.tileAt, tileVertexData, ty0] using h3

/-- Witness for C9: tile index 9 with a purported type count of 4. -/
theorem no_tile_index_validation_witness :
    4 ≤ 9 ∧ (vertexData atlasW (singleTileMap 9)).getD 2 0
      = ((9 % 4 : ℕ) : ℚ) * (1 / 4) + 1 / 128 :=
  ⟨by decide, (no_tile_index_validation atlasW 4 9 (by decide)).2.1⟩

/-- Mutable state a GPU-buffered renderer holds between calls: the tilemap
reference and the uploaded vertex-buffer contents. -/
structure RendererState where
  tilemap : Tilemap
  vbo : List ℚ

/-- State effect of `_OpenGLRenderer.recalculate` for the per-vertex
variant: `_update_vbo` re-reads the current tilemap and re-uploads the
buffer with `glBufferData` (`_update_vao` only re-binds attribute layout
and touches no state modelled here). -/
def recalculate (c : AtlasConsts) (s : RendererState) : RendererState :=
  { tilemap := s.tilemap, vbo := vertexData c s.tilemap }

/-- Claim C8: recalculate() can be called repeatedly; after every call the
GPU-resident vertex data equals the layout computed from the tilemap's
current contents, the tilemap itself is untouched, and after swapping in a
mutated tilemap the rebuilt buffer reflects the new tile indices tile by
tile. -/
theorem recalculate_rebuilds (c : AtlasConsts) (s : RendererState) :
    (recalculate c s).vbo = vertexData c s.tilemap
  ∧ (recalculate c s).tilemap = s.tilemap
  ∧ recalculate c (recalculate c s) = recalculate c s
  ∧ ∀ tm x y, x < tm.cols → y < tm.rows →
      (((recalculate c { tilemap := tm, vbo := s.vbo }).vbo).drop
          ((x * tm.rows + y) * 24)).take 24
        = tileVertexData c x y (tm.tileAt y x) :=
  ⟨rfl, rfl, rfl, fun tm x y hx hy => vertexData_chunk c tm x y hx hy⟩

/-- Witness for C8: rebuilding from a swapped-in single-tile map picks up
tile index 2. -/
theorem recalculate_rebuilds_witness :
    (recalculate atlasW ⟨singleTileMap 0, []⟩).tilemap = singleTileMap 0
  ∧ ((recalculate atlasW { tilemap := singleTileMap 2, vbo := [] }).vbo.drop
        0).take 24
      = tileVertexData atlasW 0 0 2 :=
  ⟨(recalculate_rebuilds atlasW ⟨singleTileMap 0, []⟩).2.1,
    (recalculate_rebuilds atlasW ⟨singleTileMap 0, []⟩).2.2.2
      (singleTileMap 2) 0 0 Nat.one_pos Nat.one_pos⟩

/-- Results of the three GL delete calls made by `_OpenGLRenderer.__del__`;
after the context is destroyed any of them may raise. -/
structure GLDeleteModel where
  deleteVertexArraysResult : Except String Unit
  deleteBuffersResult : Except String Unit
  deleteProgramResult : Except String Unit

/-- Body of the `try` block in `_OpenGLRenderer.__del__`:
glDeleteVertexArrays, then glDeleteBuffers, then glDeleteProgram, stopping
at the first call that raises. -/
def rendererDelBody (o : GLDeleteModel) : Except String Unit := do
  let _ ← o.deleteVertexArraysResult
  let _ ← o.deleteBuffersResult
  o.deleteProgramResult

/-- The whole of `_OpenGLRenderer.__del__`: the try block with a bare
`except: pass` around it. -/
def rendererDel (o : GLDeleteModel) : Except String Unit :=
  match rendererDelBody o with
  | Except.ok _ => Except.ok ()
  | Except.error _ => Except.ok ()

/-- Claim C7: the destructor never propagates an exception, whatever the
three underlying delete calls do. -/
theorem del_never_raises (o : GLDeleteModel) :
    rendererDel o = Except.ok () := by
  unfold rendererDel
  cases rendererDelBody o <;> rfl

/-- Outcomes the GL driver reports to `_compile_shader_program`: per-stage
compile status and info log (indexed by position in the source list), and
the link status and program info log. -/
structure GLShaderModel where
  compileOk : ℕ → Bool
  compileLog : ℕ → String
  linkOk : Bool
  linkLog : String

/-- The compile loop of `_compile_shader_program`: stages are compiled in
list order starting at index i with k stages left; the first stage whose
GL_COMPILE_STATUS is false raises RuntimeError with that stage's info log. -/
def compileShaders (o : GLShaderModel) : ℕ → ℕ → Except String Unit
  | _, 0 => Except.ok ()
  | i, k + 1 =>
    if o.compileOk i then compileShaders o (i + 1) k
    else Except.error (o.compileLog i)

/-- The whole of `_compile_shader_program` over n shader stages: compile
each stage in order, then link; a false GL_LINK_STATUS raises RuntimeError
with the program info log. -/
def compileShaderProgram (o : GLShaderModel) (n : ℕ) : Except String Unit :=
  match compileShaders o 0 n with
  | Except.error e => Except.error e
  | Except.ok _ =>
    if o.linkOk then Except.ok () else Except.error o.linkLog

/-- Construction steps of `_OpenGLRenderer.__init__` after storing the
tilemap: `_create_shader`, `_allocate_vbo_vao`, `recalculate`. -/
inductive InitStage where
  | shaderCompiled
  | buffersAllocated
  | geometryBuilt
deriving DecidableEq

/-- Control flow of `_OpenGLRenderer.__init__`: `_create_shader` (which
calls `_compile_shader_program`) runs first; only when it returns do
`_allocate_vbo_vao` and `recalculate` run, and a raised RuntimeError
propagates out of the constructor. -/
def rendererInit (o : GLShaderModel) (n : ℕ) : Except String (List InitStage) :=
  match compileShaderProgram o n with
  | Except.error e => Except.error e
  | Except.ok _ =>
    Except.ok [InitStage.shaderCompiled, InitStage.buffersAllocated,
      InitStage.geometryBuilt]

/-- Compile loop succeeds when every stage in the window compiles. -/
lemma compileShaders_ok (o : GLShaderModel) :
    ∀ (k i : ℕ), (∀ j, j < k → o.compileOk (i + j) = true) →
      compileShaders o i k = Except.ok () := by
  intro k
  induction k with
  | zero => intro i _; rfl
  | succ m ih =>
    intro i hall
    rw [compileShaders, if_pos (by simpa using hall 0 (Nat.succ_pos m))]
    exact ih (i + 1) fun j hj => by
      have := hall (j + 1) (by omega)
      simpa [Nat.add_assoc, Nat.add_comm 1 j] using this

/-- Compile loop raises the log of the first failing stage. -/
lemma compileShaders_err (o : GLShaderModel) :
    ∀ (k i j : ℕ), j < k → o.compileOk (i + j) = false →
      (∀ l, l < j → o.compileOk (i + l) = true) →
      compileShaders o i k = Except.error (o.compileLog (i + j)) := by
  intro k
  induction k with
  | zero => intro i j hj _ _; exact absurd hj (Nat.not_lt_zero j)
  | succ m ih =>
    intro i j hj hfail hmin
    cases j with
    | zero =>
      rw [compileShaders, if_neg (by simpa using hfail)]
      rfl
    | succ l =>
      rw [compileShaders, if_pos (by simpa using hmin 0 (Nat.succ_pos l))]
      have h1 := ih (i + 1) l (by omega)
        (by simpa [Nat.add_assoc, Nat.add_comm 1 l] using hfail)
        (fun l' hl' => by
          have := hmin (l' + 1) (by omega)
          simpa [Nat.add_assoc, Nat.add_comm 1 l'] using this)
      rw [h1, Nat.add_assoc, Nat.add_comm 1 l]

/-- Claim C6: during construction, a stage failing to compile makes the
constructor raise with that stage's compiler log (stages before it having
compiled), a failed link makes it raise with the linker log, and in either
case no later construction step runs: the constructor yields no state. -/
theorem shader_failure_aborts (o : GLShaderModel) (n : ℕ) :
    (∀ j, j < n → o.compileOk j = false → (∀ i, i < j → o.compileOk i = true) →
        rendererInit o n = Except.error (o.compileLog j))
  ∧ ((∀ i, i < n → o.compileOk i = true) → o.linkOk = false →
        rendererInit o n = Except.error o.linkLog) := by
  constructor
  · intro j hj hfail hmin
    have h1 := compileShaders_err o n 0 j hj (by simpa using hfail)
      (fun l hl => by simpa using hmin l hl)
    unfold rendererInit compileShaderProgram
    rw [h1]
    simp
  · intro hall hlink
    have h1 := compileShaders_ok o n 0 (fun j hj => by simpa using hall j hj)
    unfold rendererInit compileShaderProgram
    rw [h1, if_neg (by simp [hlink])]

/-- Witness for C6: a two-stage program whose second stage fails to
compile, and a two-stage program that compiles but fails to link. -/
theorem shader_failure_aborts_witness :
    rendererInit ⟨fun i => decide (i = 0), fun _ => "frag stage log", true, "x"⟩ 2
        = Except.error "frag stage log"
  ∧ rendererInit ⟨fun _ => true, fun _ => "", false, "link log"⟩ 2
        = Except.error "link log" :=
  ⟨(shader_failure_aborts ⟨fun i => decide (i = 0), fun _ => "frag stage log",
      true, "x"⟩ 2).1 1 (by decide) (by decide) (fun i hi => by
        have h0 : i = 0 := by omega
        subst h0
        rfl),
    (shader_failure_aborts ⟨fun _ => true, fun _ => "", false, "link log"⟩ 2).2
      (fun _ _ => rfl) rfl⟩

/-- Translation matrix, `pyglet.math.Mat4.from_translation(Vec3(x, y, z))`
acting on column vectors. -/
def mat4FromTranslation (x y z : ℚ) : Matrix (Fin 4) (Fin 4) ℚ :=
  Matrix.of ![![1, 0, 0, x], ![0, 1, 0, y], ![0, 0, 1, z], ![0, 0, 0, 1]]

/-- Scale matrix, `pyglet.math.Mat4.from_scale(Vec3(x, y, z))`. -/
def mat4FromScale (x y z : ℚ) : Matrix (Fin 4) (Fin 4) ℚ :=
  Matrix.of ![![x, 0, 0, 0], ![0, y, 0, 0], ![0, 0, z, 0], ![0, 0, 0, 1]]

/-- Identity matrix, `pyglet.math.Mat4()`. -/
def mat4Identity : Matrix (Fin 4) (Fin 4) ℚ := 1

/-- The matrix built by `_AbstractRenderer._get_projection_matrix`:
`proj_matrix @ view_matrix @ model_matrix` with the model translating by
(-TILEMAP_N_COLS / 2, -TILEMAP_N_ROWS / 2, 0), the view the identity, and
the projection scaling by (2 / TILEMAP_N_COLS, 2 / TILEMAP_N_ROWS, 0);
the tilemap dimension constants are taken as parameters. -/
def getProjectionMatrix (cols rows : ℕ) : Matrix (Fin 4) (Fin 4) ℚ :=
  mat4FromScale (2 / (cols : ℚ)) (2 / (rows : ℚ)) 0 * mat4Identity
    * mat4FromTranslation (-(cols : ℚ) / 2) (-(rows : ℚ) / 2) 0

/-- Claim C2: the projection matrix is Projection * View * Model with Model
a translation by (-cols/2, -rows/2, 0), View the identity, and Projection a
scale by (2/cols, 2/rows, 0), and it maps the tilemap corner (0,0) to
clip-space (-1,-1) and the corner (cols,rows) to (1,1). -/
theorem projection_maps_corners (cols rows : ℕ) (hc : 0 < cols)
    (hr : 0 < rows) :
    getProjectionMatrix cols rows
      = mat4FromScale (2 / (cols : ℚ)) (2 / (rows : ℚ)) 0 * mat4Identity
          * mat4FromTranslation (-(cols : ℚ) / 2) (-(rows : ℚ) / 2) 0
  ∧ Matrix.mulVec (getProjectionMatrix cols rows) ![0, 0, 0, 1]
      = ![-1, -1, 0, 1]
  ∧ Matrix.mulVec (getProjectionMatrix cols rows)
        ![(cols : ℚ), (rows : ℚ), 0, 1]
      = ![1, 1, 0, 1] := by
  have hc' : (cols : ℚ) ≠ 0 := Nat.cast_ne_zero.mpr hc.ne'
  have hr' : (rows : ℚ) ≠ 0 := Nat.cast_ne_zero.mpr hr.ne'
  refine ⟨rfl, ?_, ?_⟩
  · funext i
    fin_cases i <;>
      simp [getProjectionMatrix, mat4FromScale, mat4Identity,
        mat4FromTranslation, Matrix.mul_apply, Matrix.mulVec,
        Matrix.dotProduct, Fin.sum_univ_four] <;>
      field_simp
  · funext i
    fin_cases i <;>
      simp [getProjectionMatrix, mat4FromScale, mat4Identity,
        mat4FromTranslation, Matrix.mul_apply, Matrix.mulVec,
        Matrix.dotProduct, Fin.sum_univ_four] <;>
      field_simp <;>
      ring

/-- Witness for C2, on a 3 × 3 tilemap. -/
theorem projection_maps_corners_witness :
    (0 : ℕ) < 3
  ∧ Matrix.mulVec (getProjectionMatrix 3 3) ![0, 0, 0, 1] = ![-1, -1, 0, 1]
  ∧ Matrix.mulVec (getProjectionMatrix 3 3) ![(3 : ℚ), (3 : ℚ), 0, 1]
      = ![1, 1, 0, 1] :=
  ⟨by decide, (projection_maps_corners 3 3 (by decide) (by decide)).2.1,
    by
      have h := (projection_maps_corners 3 3 (by decide) (by decide)).2.2
      simpa using h⟩

/-- Quads (6-vertex groups) written by the CPU per-vertex mode, in loop
order: x over columns, then y over rows. -/
def cpuQuads (c : AtlasConsts) (tm : Tilemap) : List (List ℚ) :=
  (List.range tm.cols).flatMap fun x =>
    (List.range tm.rows).map fun y => tileVertexData c x y (tm.tileAt y x)

/-- Modelled from the spec: the geometry-stage expansion rule lives in the
shader asset GeometryShaderRenderer.geom, which is not under src/. Per the
spec, the stage receives the tile index, the grid-column count and the
atlas constants, and synthesizes for each point the same 6-vertex quad the
CPU mode builds; the point's grid cell is recovered from its linear index
in the row-major buffer (x = i % n_cols, y = i // n_cols). -/
def geomExpand (c : AtlasConsts) (nCols pointIndex tile : ℕ) : List ℚ :=
  tileVertexData c (pointIndex % nCols) (pointIndex / nCols) tile

/-- Quads produced by expanding every entry of the uploaded point-mode
buffer with the geometry rule. -/
def geomQuads (c : AtlasConsts) (tm : Tilemap) : List (List ℚ) :=
  (List.range (geomUpdateVbo tm).length).map fun i =>
    geomExpand c tm.cols i ((geomUpdateVbo tm).getD i 0)

/-- Flatten distributes over flatMap. -/
lemma flatten_flatMap {α β : Type} (l : List α) (f : α → List (List β)) :
    (l.flatMap f).flatten = l.flatMap fun a => (f a).flatten := by
  induction l with
  | nil => rfl
  | cons a l ih => rw [List.flatMap_cons, List.flatMap_cons,
      List.flatten_append, ih]

/-- Claim C4: expanding each uploaded tile index with the deferred geometry
rule yields exactly the quads the CPU per-vertex mode writes, and those
quads flattened are the CPU mode's vertex buffer. -/
theorem geom_expansion_matches_cpu (c : AtlasConsts) (tm : Tilemap) :
    (∀ q : List ℚ, q ∈ geomQuads c tm ↔ q ∈ cpuQuads c tm)
  ∧ (cpuQuads c tm).flatten = vertexData c tm := by
  constructor
  · intro q
    constructor
    · intro hq
      simp only [geomQuads, geomUpdateVbo, List.mem_map, List.mem_range] at hq
      obtain ⟨i, hi, hq⟩ := hq
      rw [tm.hLen] at hi
      have hpos : 0 < tm.rows * tm.cols := lt_of_le_of_lt (Nat.zero_le i) hi
      have hcols : 0 < tm.cols := by
        rcases Nat.eq_zero_or_pos tm.cols with h0 | h0
        · rw [h0, Nat.mul_zero] at hpos
          exact absurd hpos (lt_irrefl 0)
        · exact h0
      simp only [cpuQuads, List.mem_flatMap, List.mem_map, List.mem_range]
      refine ⟨i % tm.cols, Nat.mod_lt i hcols, i / tm.cols,
        (Nat.div_lt_iff_lt_mul hcols).mpr hi, ?_⟩
      rw [← hq]
      unfold geomExpand Tilemap.tileAt
      have hidx : i / tm.cols * tm.cols + i % tm.cols = i := by
        rw [Nat.mul_comm]
        exact Nat.div_add_mod i tm.cols
      rw [hidx]
    · intro hq
      simp only [cpuQuads, List.mem_flatMap, List.mem_map, List.mem_range] at hq
      obtain ⟨x, hx, y, hy, hq⟩ := hq
      have hcols : 0 < tm.cols := lt_of_le_of_lt (Nat.zero_le x) hx
      simp only [geomQuads, geomUpdateVbo, List.mem_map, List.mem_range]
      refine ⟨y * tm.cols + x, ?_, ?_⟩
      · rw [tm.hLen]
        calc y * tm.cols + x < (y + 1) * tm.cols := by
              rw [Nat.succ_mul]; omega
          _ ≤ tm.rows * tm.cols := Nat.mul_le_mul_right tm.cols hy
      · rw [← hq]
        unfold geomExpand Tilemap.tileAt
        have hmod : (y * tm.cols + x) % tm.cols = x := by
          rw [Nat.add_comm, Nat.add_mul_mod_self_right]
          exact Nat.mod_eq_of_lt hx
        have hdiv : (y * tm.cols + x) / tm.cols = y := by
          rw [Nat.add_comm, Nat.add_mul_div_right x y hcols,
            Nat.div_eq_of_lt hx, Nat.zero_add]
        rw [hmod, hdiv]
  · unfold cpuQuads vertexData
    rw [flatten_flatMap]
    simp only [← List.flatMap_def]

/-- Per-vertex position floats the loop body of
`Pyglet_VertexBufferedRenderer._update_vbo` writes into `position_data` for
the tile at (x, y): 6 vertices × (x, y). -/
def tilePositionData (x y : ℕ) : List ℚ :=
  [x, y, x + 1, y, x, y + 1, x + 1, y, x, y + 1, x + 1, y + 1]

/-- Texture-coordinate floats the same loop body writes into
`texcoord_data` for a tile with index `tile`. -/
def tileTexcoordData (c : AtlasConsts) (tile : ℕ) : List ℚ :=
  [tx0 c tile, ty0 c tile,
   tx0 c tile + tSize c, ty0 c tile,
   tx0 c tile, ty0 c tile + tSize c,
   tx0 c tile + tSize c, ty0 c tile,
   tx0 c tile, ty0 c tile + tSize c,
   tx0 c tile + tSize c, ty0 c tile + tSize c]

/-- The full `position_data` array built by
`Pyglet_VertexBufferedRenderer._update_vbo` (x over columns, y over rows). -/
def pygletPositionData (tm : Tilemap) : List ℚ :=
  (List.range tm.cols).flatMap fun x =>
    (List.range tm.rows).flatMap fun y => tilePositionData x y

/-- The full `texcoord_data` array built by the same loop. -/
def pygletTexcoordData (c : AtlasConsts) (tm : Tilemap) : List ℚ :=
  (List.range tm.cols).flatMap fun x =>
    (List.range tm.rows).flatMap fun y => tileTexcoordData c (tm.tileAt y x)

/-- Element-for-element interleaving of two attribute arrays with two
floats per vertex: position pair, then texcoord pair, per vertex. -/
def interleave2 : List ℚ → List ℚ → List ℚ
  | a :: b :: ps, u :: v :: ts => a :: b :: u :: v :: interleave2 ps ts
  | _, _ => []

/-- Interleaving distributes over appending blocks of equal even length. -/
lemma interleave2_append :
    ∀ (k : ℕ) (p₁ t₁ p₂ t₂ : List ℚ), p₁.length = 2 * k → t₁.length = 2 * k →
      interleave2 (p₁ ++ p₂) (t₁ ++ t₂)
        = interleave2 p₁ t₁ ++ interleave2 p₂ t₂ := by
  intro k
  induction k with
  | zero =>
    intro p₁ t₁ p₂ t₂ hp ht
    have hp0 : p₁ = [] := List.length_eq_zero.mp (by omega)
    have ht0 : t₁ = [] := List.length_eq_zero.mp (by omega)
    subst hp0
    subst ht0
    rfl
  | succ m ih =>
    intro p₁ t₁ p₂ t₂ hp ht
    obtain ⟨a, b, p₁', rfl⟩ : ∃ a b p', p₁ = a :: b :: p' := by
      cases p₁ with
      | nil => simp at hp
      | cons a tl =>
        cases tl with
        | nil => simp at hp; omega
        | cons b p' => exact ⟨a, b, p', rfl⟩
    obtain ⟨u, v, t₁', rfl⟩ : ∃ u v t', t₁ = u :: v :: t' := by
      cases t₁ with
      | nil => simp at ht
      | cons u tl =>
        cases tl with
        | nil => simp at ht; omega
        | cons v t' => exact ⟨u, v, t', rfl⟩
    simp only [List.cons_append]
    show a :: b :: u :: v :: interleave2 (p₁' ++ p₂) (t₁' ++ t₂)
      = a :: b :: u :: v :: interleave2 p₁' t₁' ++ interleave2 p₂ t₂
    rw [ih p₁' t₁' p₂ t₂ (by simp at hp; omega) (by simp at ht; omega)]
    rfl

/-- Interleaving commutes with flat-mapping paired blocks. -/
lemma interleave2_flatMap (f g w : ℕ → List ℚ) (k : ℕ → ℕ)
    (hf : ∀ a, (f a).length = 2 * k a) (hg : ∀ a, (g a).length = 2 * k a)
    (hfg : ∀ a, interleave2 (f a) (g a) = w a) :
    ∀ l : List ℕ, interleave2 (l.flatMap f) (l.flatMap g) = l.flatMap w := by
  intro l
  induction l with
  | nil => rfl
  | cons a l ih =>
    rw [List.flatMap_cons, List.flatMap_cons, List.flatMap_cons,
      interleave2_append (k a) (f a) (g a) _ _ (hf a) (hg a), hfg a, ih]

/-- Claim C10: the fourth renderer variant, Pyglet_VertexBufferedRenderer,
builds position and texcoord arrays whose per-vertex interleaving equals
the vertex buffer of VertexBufferedRenderer, and both arrays hold
n_tiles * 6 * 2 floats. -/
theorem pyglet_matches_vertex_buffer (c : AtlasConsts) (tm : Tilemap) :
    interleave2 (pygletPositionData tm) (pygletTexcoordData c tm)
      = vertexData c tm
  ∧ (pygletPositionData tm).length = tm.map.length * 6 * 2
  ∧ (pygletTexcoordData c tm).length = tm.map.length * 6 * 2 := by
  refine ⟨?_, ?_, ?_⟩
  · unfold pygletPositionData pygletTexcoordData vertexData
    refine interleave2_flatMap _ _ _ (fun _ => tm.rows * 6) ?_ ?_ ?_
      (List.range tm.cols)
    · intro x
      rw [List.range_eq_range',
        flatMap_range'_length (fun y => tilePositionData x y) 12
          (fun _ => rfl) tm.rows 0]
      ring
    · intro x
      rw [List.range_eq_range',
        flatMap_range'_length (fun y => tileTexcoordData c (tm.tileAt y x)) 12
          (fun _ => rfl) tm.rows 0]
      ring
    · intro x
      exact interleave2_flatMap (fun y => tilePositionData x y)
        (fun y => tileTexcoordData c (tm.tileAt y x))
        (fun y => tileVertexData c x y (tm.tileAt y x))
        (fun _ => 6) (fun _ => rfl) (fun _ => rfl) (fun _ => rfl)
        (List.range tm.rows)
  · unfold pygletPositionData
    rw [List.range_eq_range',
      flatMap_range'_length _ (tm.rows * 12) (fun x => by
        rw [List.range_eq_range',
          flatMap_range'_length (fun y => tilePositionData x y) 12
            (fun _ => rfl) tm.rows 0]) tm.cols 0, tm.hLen]
    ring
  · unfold pygletTexcoordData
    rw [List.range_eq_range',
      flatMap_range'_length _ (tm.rows * 12) (fun x => by
        rw [List.range_eq_range',
          flatMap_range'_length (fun y => tileTexcoordData c (tm.tileAt y x))
            12 (fun _ => rfl) tm.rows 0]) tm.cols 0, tm.hLen]
    ring
